import Mathlib

/-!
Shallow embedding of the event-manager backend (FastAPI + SQLAlchemy service
layer) and proofs about its behaviour.

The database is modelled as an explicit state (lists of Event, Permission and
History rows plus a fresh-id counter standing in for uuid4 generation).  Each
service function from `app/services/event_service.py` and
`app/services/history_service.py`, and each endpoint from
`app/api/history.py`, is translated into a pure Lean function over that state.
An operation returns its resulting state together with an `Except` value; when
the Python code raises before commit, the transaction is rolled back, so the
embedded function returns the unchanged input state on the error path.

Python `try/except` blocks are embedded faithfully: a block guarded by
`except SQLAlchemyError` lets the business exceptions
(Conflict/Forbidden/NotFound) raised inside it propagate, while a block guarded
by `except Exception` converts every exception raised inside it (including
those business exceptions) into `ServiceUnavailable`, exactly as the source
does.  Failures of the persistence layer itself (the `SQLAlchemyError` case)
are external nondeterminism and are outside the deterministic model.

Wall-clock data (`datetime.utcnow()` timestamps on History rows) and the
human-readable `message` strings of notifications are omitted from the model;
no claim mentions them.  Times are modelled as integers; `isoformat` /
`fromisoformat` are modelled as decimal printing/parsing of those integers.
-/

deriving instance DecidableEq for Except

namespace EventManager

/-- Role stored in a Permission row (`app/models/enums.py`). -/
inductive PermissionRole where
  | OWNER
  | EDITOR
  | VIEWER
deriving DecidableEq, Repr

/-- The error taxonomy of `app/utils/exceptions.py` plus `ServiceUnavailableError`
(raised throughout the services; its class is declared outside `src/`). -/
inductive ApiError where
  | Conflict
  | Forbidden
  | NotFound
  | Unauthorized
  | ServiceUnavailable
deriving DecidableEq, Repr

/-- Modelled from the spec: the Event ORM model (`app/models/event.py` is not
under `src/`); fields follow section 3 of the spec and the snapshot dicts built
in `event_service.py` and `history_service.py`. -/
structure EventRow where
  id : Nat
  title : String
  description : Option String
  start_time : Int
  end_time : Int
  location : Option String
  is_recurring : Bool
  recurrence_pattern : Option String
  owner_id : Nat
deriving DecidableEq, Repr

/-- The flat JSONB snapshot stored in a History row: timestamps serialized as
strings, owner id serialized as a string (`event_service.py` lines 81-90). -/
structure Snapshot where
  title : String
  description : Option String
  start_time : String
  end_time : String
  location : Option String
  is_recurring : Bool
  recurrence_pattern : Option String
  owner_id : String
deriving DecidableEq, Repr

/-- Permission row (`app/models/permission.py`). -/
structure PermissionRow where
  id : Nat
  event_id : Nat
  user_id : Nat
  role : PermissionRole
deriving DecidableEq, Repr

/-- History row (`app/models/history.py`); the wall-clock `timestamp` column is
omitted from the model. -/
structure HistoryRow where
  id : Nat
  event_id : Nat
  version : Nat
  data : Snapshot
  changed_by : Option Nat
deriving DecidableEq, Repr

/-- The relational store: the three tables plus a counter supplying fresh
primary keys (standing in for `uuid.uuid4`). -/
structure DB where
  events : List EventRow
  permissions : List PermissionRow
  histories : List HistoryRow
  nextId : Nat
deriving DecidableEq, Repr

/-- Payload of `EventCreate` (`app/schemas/event.py`), as the dict passed to
`create_event`. -/
structure EventCreate where
  title : String
  description : Option String
  start_time : Int
  end_time : Int
  location : Option String
  is_recurring : Bool
  recurrence_pattern : Option String
deriving DecidableEq, Repr

/-- Payload of `EventUpdate` after `.dict(exclude_unset := true)`: a field is
`some v` when the key is present in the partial-update dict. -/
structure EventUpdate where
  title : Option String
  description : Option (Option String)
  start_time : Option Int
  end_time : Option Int
  location : Option (Option String)
  is_recurring : Option Bool
  recurrence_pattern : Option (Option String)
deriving DecidableEq, Repr

/-- One entry of the `grant_event_permissions` items list. -/
structure GrantItem where
  user_id : Nat
  role : PermissionRole
deriving DecidableEq, Repr

/-- A message published on the notification channel
(`app/utils/notifications.py`); the free-text `message` field is omitted. -/
structure PubMsg where
  user_ids : List Nat
  ntype : String
  event_id : Nat
  initiator_id : Nat
deriving DecidableEq, Repr

/-- Decimal digits of `n`, least significant first; the first argument is
recursion fuel. -/
def natDigitsRev : Nat → Nat → List Char
  | 0, _ => []
  | fuel + 1, n =>
    if n = 0 then [] else Char.ofNat (48 + n % 10) :: natDigitsRev fuel (n / 10)

/-- Decimal rendering of a natural number. -/
def natToDec (n : Nat) : String :=
  if n = 0 then "0" else String.mk (natDigitsRev n n).reverse

/-- Decimal parsing of a digit list. -/
def decToNat (cs : List Char) : Nat :=
  cs.foldl (fun acc c => acc * 10 + (c.toNat - 48)) 0

/-- `datetime.isoformat`, modelled as decimal printing of the integer time. -/
def isoformat (t : Int) : String :=
  match t with
  | .ofNat n => natToDec n
  | .negSucc n => "-" ++ natToDec (n + 1)

/-- `datetime.fromisoformat`, modelled as decimal parsing of the string. -/
def fromisoformat (s : String) : Int :=
  match s.data with
  | '-' :: rest => - (decToNat rest : Int)
  | cs => (decToNat cs : Int)

/-- The snapshot dict built from a live event row (`event_service.py`
lines 81-90, 267-276; `history_service.py` lines 108-117). -/
def eventSnapshot (e : EventRow) : Snapshot :=
  { title := e.title
    description := e.description
    start_time := isoformat e.start_time
    end_time := isoformat e.end_time
    location := e.location
    is_recurring := e.is_recurring
    recurrence_pattern := e.recurrence_pattern
    owner_id := natToDec e.owner_id }

/-- `get_user_event_permission` (`event_service.py` lines 43-57): first
Permission row matching user and event, if any. -/
def get_user_event_permission (db : DB) (user_id event_id : Nat) :
    Option PermissionRow :=
  db.permissions.find? (fun p => p.user_id == user_id && p.event_id == event_id)

/-- `get_event_participant_user_ids` (`app/utils/notifications.py`
lines 17-22): user ids of all Permission rows on the event. -/
def get_event_participant_user_ids (db : DB) (event_id : Nat) : List Nat :=
  (db.permissions.filter (fun p => p.event_id == event_id)).map
    (fun p => p.user_id)

/-- The row inserted by `Event(**data, owner_id=user_id)` followed by
`flush` (which assigns the fresh primary key). -/
def new_event (db : DB) (user_id : Nat) (data : EventCreate) : EventRow :=
  { id := db.nextId
    title := data.title
    description := data.description
    start_time := data.start_time
    end_time := data.end_time
    location := data.location
    is_recurring := data.is_recurring
    recurrence_pattern := data.recurrence_pattern
    owner_id := user_id }

/-- `create_event` (`event_service.py` lines 60-121).  The overlap SELECT
(lines 63-72) runs first; on overlap `ConflictError` is raised before any
write and propagates (the surrounding `except` catches only
`SQLAlchemyError`).  Otherwise the event, its Owner permission and a
version-1 History snapshot are inserted and committed, and the event is
re-loaded for the response. -/
def create_event (db : DB) (user_id : Nat) (data : EventCreate) :
    DB × Except ApiError EventRow :=
  if db.events.any (fun ev =>
      ev.owner_id == user_id && decide (ev.start_time < data.end_time)
        && decide (ev.end_time > data.start_time)) then
    (db, .error .Conflict)
  else
    let event : EventRow := new_event db user_id data
    let perm : PermissionRow :=
      { id := db.nextId + 1
        event_id := event.id
        user_id := user_id
        role := .OWNER }
    let history : HistoryRow :=
      { id := db.nextId + 2
        event_id := event.id
        version := 1
        data := eventSnapshot event
        changed_by := some user_id }
    let db' : DB :=
      { events := db.events ++ [event]
        permissions := db.permissions ++ [perm]
        histories := db.histories ++ [history]
        nextId := db.nextId + 3 }
    match db'.events.find? (fun ev => ev.id == event.id) with
    | some created => (db', .ok created)
    | none => (db', .error .NotFound)

/-- One iteration of the `create_events_batch` loop body after a passed
overlap check: insert the event row and its Owner permission (no History
row). -/
def batch_step (user_id : Nat) (db : DB) (data : EventCreate) : DB :=
  { events := db.events ++ [new_event db user_id data]
    permissions := db.permissions ++
      [{ id := db.nextId + 1
         event_id := db.nextId
         user_id := user_id
         role := .OWNER }]
    histories := db.histories
    nextId := db.nextId + 2 }

/-- The loop body of `create_events_batch` (`event_service.py` lines 130-152):
per item, an overlap check against the current session state (earlier items of
the batch are flushed, so they are visible), then insertion of the event and
its Owner permission.  No History row is written. -/
def create_events_batch_loop (user_id : Nat) :
    DB → List EventCreate → DB × Except ApiError (List EventRow)
  | db, [] => (db, .ok [])
  | db, data :: rest =>
    if db.events.any (fun ev =>
        ev.owner_id == user_id && decide (ev.start_time < data.end_time)
          && decide (ev.end_time > data.start_time)) then
      (db, .error .Conflict)
    else
      match create_events_batch_loop user_id (batch_step user_id db data) rest with
      | (dbf, .ok evs) => (dbf, .ok (new_event db user_id data :: evs))
      | (dbf, .error e) => (dbf, .error e)

/-- `create_events_batch` (`event_service.py` lines 124-180): all-or-nothing
over the loop; a `ConflictError` raised mid-loop aborts before commit, so the
caller observes the original state. -/
def create_events_batch (db : DB) (user_id : Nat) (ds : List EventCreate) :
    DB × Except ApiError (List EventRow) :=
  match create_events_batch_loop user_id db ds with
  | (db', .ok evs) => (db', .ok evs)
  | (_, .error e) => (db, .error e)

/-- `get_event` (`event_service.py` lines 183-204): NotFound when the event is
absent, Forbidden when the requestor holds no Permission row on it. -/
def get_event (db : DB) (user_id event_id : Nat) : Except ApiError EventRow :=
  match db.events.find? (fun ev => ev.id == event_id) with
  | none => .error .NotFound
  | some event =>
    match get_user_event_permission db user_id event_id with
    | none => .error .Forbidden
    | some _ => .ok event

/-- Versions of the History rows of one event, in table order. -/
def eventVersions (db : DB) (event_id : Nat) : List Nat :=
  (db.histories.filter (fun h => h.event_id == event_id)).map
    (fun h => h.version)

/-- The `SELECT version ... ORDER BY version DESC LIMIT 1` used by
`update_event` (lines 279-287) and `rollback_event_to_version`
(lines 97-105): the greatest existing version, or `none` when the event has no
history. -/
def last_version (db : DB) (event_id : Nat) : Option Nat :=
  let vs := eventVersions db event_id
  if vs.isEmpty then none else some (vs.foldl Nat.max 0)

/-- `next_version = 1 if last_version is None else last_version + 1`. -/
def next_version_for (db : DB) (event_id : Nat) : Nat :=
  match last_version db event_id with
  | none => 1
  | some v => v + 1

/-- Greatest History version of an event, defaulting to 0. -/
def maxVersion (db : DB) (event_id : Nat) : Nat :=
  (eventVersions db event_id).foldl Nat.max 0

/-- The `setattr` loop of `update_event` (lines 300-301): each key present in
the partial-update dict overwrites the corresponding field. -/
def applyUpdate (data : EventUpdate) (e : EventRow) : EventRow :=
  { e with
    title := data.title.getD e.title
    description := data.description.getD e.description
    start_time := data.start_time.getD e.start_time
    end_time := data.end_time.getD e.end_time
    location := data.location.getD e.location
    is_recurring := data.is_recurring.getD e.is_recurring
    recurrence_pattern := data.recurrence_pattern.getD e.recurrence_pattern }

/-- The `try` body of `update_event` (`event_service.py` lines 241-306):
overlap check when both `start_time` and `end_time` keys are present
(filtering on `Event.owner_id == user_id`, the ACTOR, and excluding the
updated event id), event load, pre-update snapshot at the next sequential
version, field update, commit. -/
def update_event_try (db : DB) (user_id event_id : Nat) (data : EventUpdate) :
    DB × Except ApiError EventRow :=
  if data.start_time.isSome && data.end_time.isSome
      && db.events.any (fun ev =>
        ev.owner_id == user_id && ev.id != event_id
          && decide (ev.start_time < data.end_time.getD 0)
          && decide (ev.end_time > data.start_time.getD 0)) then
    (db, .error .Conflict)
  else
    match db.events.find? (fun ev => ev.id == event_id) with
    | none => (db, .error .NotFound)
    | some event =>
      let old_data := eventSnapshot event
      let history : HistoryRow :=
        { id := db.nextId
          event_id := event_id
          version := next_version_for db event_id
          data := old_data
          changed_by := some user_id }
      let event' := applyUpdate data event
      let db' : DB :=
        { events := db.events.map (fun ev =>
            if ev.id == event_id then event' else ev)
          permissions := db.permissions
          histories := db.histories ++ [history]
          nextId := db.nextId + 1 }
      (db', .ok event')

/-- `update_event` (`event_service.py` lines 228-310).  The permission check
precedes the `try` block, so its `ForbiddenError` propagates; the `try` block
is guarded by `except Exception`, so EVERY exception raised inside it —
including the deliberately raised `ConflictError` and `NotFoundError` — is
re-raised as `ServiceUnavailableError`. -/
def update_event (db : DB) (user_id event_id : Nat) (data : EventUpdate) :
    DB × Except ApiError EventRow :=
  match get_user_event_permission db user_id event_id with
  | none => (db, .error .Forbidden)
  | some perm =>
    if perm.role == .OWNER || perm.role == .EDITOR then
      match update_event_try db user_id event_id data with
      | (db', .ok ev) => (db', .ok ev)
      | (dbe, .error _) => (dbe, .error .ServiceUnavailable)
    else
      (db, .error .Forbidden)

/-- `delete_event` (`event_service.py` lines 313-358): load, NotFound /
Forbidden checks, then delete with cascade of Permission and History rows and
commit; the participant set is computed AFTER the commit, from the
post-delete table state, and a notification is published only when that set
(minus the initiator) is non-empty. -/
def delete_event (db : DB) (user_id event_id : Nat) :
    DB × List PubMsg × Except ApiError Unit :=
  match db.events.find? (fun ev => ev.id == event_id) with
  | none => (db, [], .error .NotFound)
  | some _ =>
    match get_user_event_permission db user_id event_id with
    | none => (db, [], .error .Forbidden)
    | some perm =>
      if perm.role == .OWNER then
        let db' : DB :=
          { events := db.events.filter (fun ev => ev.id != event_id)
            permissions := db.permissions.filter
              (fun p => p.event_id != event_id)
            histories := db.histories.filter
              (fun h => h.event_id != event_id)
            nextId := db.nextId }
        let user_ids :=
          (get_event_participant_user_ids db' event_id).filter
            (fun uid => uid != user_id)
        let msgs : List PubMsg :=
          if user_ids.isEmpty then []
          else [{ user_ids := user_ids
                  ntype := "event_deleted"
                  event_id := event_id
                  initiator_id := user_id }]
        (db', msgs, .ok ())
      else
        (db, [], .error .Forbidden)

/-- The loop of `grant_event_permissions` (`event_service.py` lines 378-393):
skip entries whose user is the actor; raise `ConflictError` when a Permission
row for (event, user) already exists in the session (earlier entries of the
batch included, via autoflush); otherwise add the new row. -/
def grant_loop (event_id current_user_id : Nat) :
    DB → List GrantItem → DB × List PermissionRow × Except ApiError Unit
  | db, [] => (db, [], .ok ())
  | db, item :: rest =>
    if item.user_id == current_user_id then
      grant_loop event_id current_user_id db rest
    else if (db.permissions.find? (fun p =>
        p.event_id == event_id && p.user_id == item.user_id)).isSome then
      (db, [], .error .Conflict)
    else
      let perm : PermissionRow :=
        { id := db.nextId
          event_id := event_id
          user_id := item.user_id
          role := item.role }
      let db1 : DB :=
        { db with
          permissions := db.permissions ++ [perm]
          nextId := db.nextId + 1 }
      match grant_loop event_id current_user_id db1 rest with
      | (dbf, created, r) => (dbf, perm :: created, r)

/-- `grant_event_permissions` (`event_service.py` lines 361-424): owner check
before the `try` block; the loop commits all-or-nothing (a `ConflictError`
aborts before commit, leaving the store unchanged); one targeted
`permission_granted` message per created row. -/
def grant_event_permissions (db : DB) (current_user_id event_id : Nat)
    (items : List GrantItem) :
    DB × List PubMsg × Except ApiError (List PermissionRow) :=
  match get_user_event_permission db current_user_id event_id with
  | none => (db, [], .error .Forbidden)
  | some owner_perm =>
    if owner_perm.role == .OWNER then
      match grant_loop event_id current_user_id db items with
      | (db', created, .ok _) =>
        let msgs : List PubMsg := created.map (fun p =>
          { user_ids := [p.user_id]
            ntype := "permission_granted"
            event_id := event_id
            initiator_id := current_user_id })
        (db', msgs, .ok created)
      | (_, _, .error e) => (db, [], .error e)
    else
      (db, [], .error .Forbidden)

/-- `get_event_history_versions` (`history_service.py` lines 21-40): all
History rows of the event, ordered by version ascending. -/
def get_event_history_versions (db : DB) (event_id : Nat) : List HistoryRow :=
  List.insertionSort (fun a b => a.version ≤ b.version)
    (db.histories.filter (fun h => h.event_id == event_id))

/-- `get_event_version` (`history_service.py` lines 43-55): point lookup of a
History row by its primary key ALONE — the row's `event_id` is not
constrained. -/
def get_event_version (db : DB) (version_id : Nat) : Option HistoryRow :=
  db.histories.find? (fun h => h.id == version_id)

/-- The `for field in [...]` loop of `rollback_event_to_version`
(`history_service.py` lines 79-94): each non-null snapshot value overwrites
the live field, with ISO strings parsed back for the two time fields;
`owner_id` is not in the field list and is left unchanged. -/
def applyVersionData (s : Snapshot) (e : EventRow) : EventRow :=
  { e with
    title := s.title
    description := match s.description with
      | some v => some v
      | none => e.description
    start_time := fromisoformat s.start_time
    end_time := fromisoformat s.end_time
    location := match s.location with
      | some v => some v
      | none => e.location
    is_recurring := s.is_recurring
    recurrence_pattern := match s.recurrence_pattern with
      | some v => some v
      | none => e.recurrence_pattern }

/-- The `try` body of `rollback_event_to_version` (`history_service.py`
lines 65-153): version lookup (NotFound if absent), event lookup (NotFound if
absent), in-place application of the snapshot to the event, THEN a History
snapshot of the — already mutated — event object at the next sequential
version, commit, and a re-load of the event for the response. -/
def rollback_try (db : DB) (event_id version_id user_id : Nat) :
    DB × Except ApiError EventRow :=
  match get_event_version db version_id with
  | none => (db, .error .NotFound)
  | some version =>
    match db.events.find? (fun ev => ev.id == event_id) with
    | none => (db, .error .NotFound)
    | some event =>
      let event := applyVersionData version.data event
      let history : HistoryRow :=
        { id := db.nextId
          event_id := event_id
          version := next_version_for db event_id
          data := eventSnapshot event
          changed_by := some user_id }
      let db' : DB :=
        { events := db.events.map (fun ev =>
            if ev.id == event_id then event else ev)
          permissions := db.permissions
          histories := db.histories ++ [history]
          nextId := db.nextId + 1 }
      match db'.events.find? (fun ev => ev.id == event_id) with
      | some reloaded => (db', .ok reloaded)
      | none => (db', .error .NotFound)

/-- `rollback_event_to_version` (`history_service.py` lines 58-164): the whole
body sits in a `try` guarded by `except Exception`, so every exception raised
inside — including the deliberate `NotFoundError`s — is re-raised as
`ServiceUnavailableError`. -/
def rollback_event_to_version (db : DB) (event_id version_id user_id : Nat) :
    DB × Except ApiError EventRow :=
  match rollback_try db event_id version_id user_id with
  | (db', .ok ev) => (db', .ok ev)
  | (dbe, .error _) => (dbe, .error .ServiceUnavailable)

/-- Rendering of an optional string field for the diff, standing in for JSON
null. -/
def optVal : Option String → String
  | some v => v
  | none => "null"

/-- `jsondiff.diff` on two flat snapshot dicts sharing the same key set: the
changed keys mapped to the right-hand value. -/
def snapshotDiff (a b : Snapshot) : List (String × String) :=
  (if a.title = b.title then [] else [("title", b.title)]) ++
  (if a.description = b.description then []
    else [("description", optVal b.description)]) ++
  (if a.start_time = b.start_time then [] else [("start_time", b.start_time)]) ++
  (if a.end_time = b.end_time then [] else [("end_time", b.end_time)]) ++
  (if a.location = b.location then [] else [("location", optVal b.location)]) ++
  (if a.is_recurring = b.is_recurring then []
    else [("is_recurring", toString b.is_recurring)]) ++
  (if a.recurrence_pattern = b.recurrence_pattern then []
    else [("recurrence_pattern", optVal b.recurrence_pattern)]) ++
  (if a.owner_id = b.owner_id then [] else [("owner_id", b.owner_id)])

/-- The `try` body of `get_diff_between_versions` (`history_service.py`
lines 173-186): both versions looked up by primary key alone; NotFound when
either is absent; otherwise the structural diff of the two snapshots. -/
def get_diff_try (db : DB) (version_id1 version_id2 : Nat) :
    Except ApiError (List (String × String)) :=
  match get_event_version db version_id1, get_event_version db version_id2 with
  | some v1, some v2 => .ok (snapshotDiff v1.data v2.data)
  | _, _ => .error .NotFound

/-- `get_diff_between_versions` (`history_service.py` lines 167-195): the body
sits in a `try` guarded by `except Exception`, so the deliberate
`NotFoundError` is re-raised as `ServiceUnavailableError`. -/
def get_diff_between_versions (db : DB) (version_id1 version_id2 : Nat) :
    Except ApiError (List (String × String)) :=
  match get_diff_try db version_id1 version_id2 with
  | .ok d => .ok d
  | .error _ => .error .ServiceUnavailable

/-- Endpoint `get_version` (`app/api/history.py` lines 41-61): access gate via
`get_event` on the path event id, then a History lookup by version id alone —
the returned row's `event_id` is never compared with the path event id. -/
def get_version (db : DB) (user_id event_id version_id : Nat) :
    Except ApiError HistoryRow :=
  match get_event db user_id event_id with
  | .error e => .error e
  | .ok _ =>
    match get_event_version db version_id with
    | none => .error .NotFound
    | some version => .ok version

/-- Endpoint `rollback_version` (`app/api/history.py` lines 64-86): access
gate via `get_event` (ANY Permission row suffices, no role is required), then
the rollback itself. -/
def rollback_version (db : DB) (user_id event_id version_id : Nat) :
    DB × Except ApiError EventRow :=
  match get_event db user_id event_id with
  | .error e => (db, .error e)
  | .ok _ => rollback_event_to_version db event_id version_id user_id

/-- Endpoint `diff_versions` (`app/api/history.py` lines 89-107): access gate
via `get_event` on the path event id, then the diff of the two version ids,
which are never tied to that event. -/
def diff_versions (db : DB) (user_id event_id version_id1 version_id2 : Nat) :
    Except ApiError (List (String × String)) :=
  match get_event db user_id event_id with
  | .error e => .error e
  | .ok _ => get_diff_between_versions db version_id1 version_id2

/-! ### Concrete states used by the counterexample / code-bug theorems -/

/-- Event owned by user 1: title "A", interval [600, 660). -/
def evA : EventRow :=
  { id := 0, title := "A", description := none, start_time := 600
    end_time := 660, location := none, is_recurring := false
    recurrence_pattern := none, owner_id := 1 }

/-- Second event owned by user 1: title "B", interval [720, 780). -/
def evB : EventRow :=
  { id := 1, title := "B", description := none, start_time := 720
    end_time := 780, location := none, is_recurring := false
    recurrence_pattern := none, owner_id := 1 }

/-- State for the error-conversion scenarios: user 1 owns `evA` and `evB`. -/
def dbC1 : DB :=
  { events := [evA, evB]
    permissions := [⟨2, 0, 1, .OWNER⟩, ⟨3, 1, 1, .OWNER⟩]
    histories := []
    nextId := 4 }

/-- Partial update carrying both `start_time` and `end_time`, moving the
event to [600, 660). -/
def updC1 : EventUpdate :=
  { title := none, description := none, start_time := some 600
    end_time := some 660, location := none, is_recurring := none
    recurrence_pattern := none }

/-- A history snapshot with title "B" and interval [540, 600), the state the
event had at version 1. -/
def snapC2 : Snapshot :=
  { title := "B", description := none, start_time := "540", end_time := "600"
    location := none, is_recurring := false, recurrence_pattern := none
    owner_id := "1" }

/-- State for the rollback-snapshot scenario: user 1 owns `evA` (title "A",
interval [600, 660)) whose version-1 snapshot is `snapC2`. -/
def dbC2 : DB :=
  { events := [evA]
    permissions := [⟨1, 0, 1, .OWNER⟩]
    histories := [⟨2, 0, 1, snapC2, some 1⟩]
    nextId := 3 }

/-- State for the delete-notification scenario: user 1 owns `evA` and user 2
holds a Viewer permission on it. -/
def dbC4 : DB :=
  { events := [evA]
    permissions := [⟨1, 0, 1, .OWNER⟩, ⟨2, 0, 2, .VIEWER⟩]
    histories := []
    nextId := 3 }

/-- State for the editor-update scenario: user 1 owns `evA` and `evB`; user 2
holds an Editor permission on `evB` and owns no event. -/
def dbC6 : DB :=
  { events := [evA, evB]
    permissions := [⟨2, 0, 1, .OWNER⟩, ⟨3, 1, 1, .OWNER⟩, ⟨4, 1, 2, .EDITOR⟩]
    histories := []
    nextId := 5 }

/-- C1: the claim says `update_event`'s Conflict (time overlap) and NotFound,
`rollback_event_to_version`'s NotFound, and `get_diff_between_versions`'s
NotFound reach the caller unchanged, with only unexpected persistence
failures becoming ServiceUnavailable.  The code contradicts this: each of
these bodies is guarded by `except Exception`, so the deliberately raised
business errors are re-surfaced as ServiceUnavailable.  Owner 1 updating
`evB` onto `evA`'s slot, a rollback with an absent version id, and a diff
with absent version ids all yield ServiceUnavailable. -/
theorem update_rollback_diff_convert_business_errors :
    update_event dbC1 1 1 updC1 = (dbC1, .error .ServiceUnavailable) ∧
    rollback_event_to_version dbC1 0 99 1 =
      (dbC1, .error .ServiceUnavailable) ∧
    get_diff_between_versions dbC1 98 99 = .error .ServiceUnavailable := by
  decide

/-- C2: the claim says rollback appends a History row capturing the event's
state immediately BEFORE the rollback (pre-rollback state) and then
overwrites the event.  The code applies the target snapshot to the live event
first and only then builds the History snapshot from the mutated object, so
the appended row records the POST-rollback state: rolling `evA` (title "A")
back to `snapC2` (title "B") appends a row whose snapshot has title "B", and
that snapshot differs from the pre-rollback snapshot of `evA`. -/
theorem rollback_snapshot_records_post_rollback_state :
    (rollback_event_to_version dbC2 0 2 1).1.histories =
      dbC2.histories ++
        [⟨3, 0, 2, eventSnapshot (applyVersionData snapC2 evA), some 1⟩] ∧
    (rollback_event_to_version dbC2 0 2 1).2 =
      .ok (applyVersionData snapC2 evA) ∧
    eventSnapshot (applyVersionData snapC2 evA) ≠ eventSnapshot evA := by
  decide

/-- C4: the claim says a successful delete publishes exactly one
"event_deleted" notification targeted at all Permission holders minus the
actor.  The code computes the participant set AFTER the commit of the
cascade delete, so the set is always empty and no notification is ever
published: owner 1 deleting `evA`, on which user 2 holds a Viewer
permission, publishes nothing. -/
theorem delete_event_publishes_no_notification :
    (delete_event dbC4 1 0).2.1 = [] ∧
    (delete_event dbC4 1 0).2.2 = .ok () ∧
    get_event_participant_user_ids dbC4 0 = [1, 2] := by
  decide

/-- C6: the claim says the update-path overlap check runs against the events
of the UPDATED EVENT'S OWNER, so that no two events of one owner overlap
after any successful update, whoever the actor is.  The code filters on
`Event.owner_id == user_id` where `user_id` is the ACTOR: editor 2 moving
owner 1's event `evB` onto [600, 660) is checked against editor 2's (empty)
event set, succeeds, and leaves owner 1 with the two overlapping events
`evA` = [600, 660) and the updated `evB`. -/
theorem editor_update_bypasses_owner_overlap_check :
    (update_event dbC6 2 1 updC1).2 = .ok (applyUpdate updC1 evB) ∧
    (update_event dbC6 2 1 updC1).1.events = [evA, applyUpdate updC1 evB] ∧
    evA.owner_id = (applyUpdate updC1 evB).owner_id ∧
    evA.start_time < (applyUpdate updC1 evB).end_time ∧
    (applyUpdate updC1 evB).start_time < evA.end_time := by
  decide

/-- State for the create-conflict scenario: user 1 owns `evA` = [600, 660)
(10:00-11:00 in minutes), with its Owner permission and version-1 snapshot. -/
def dbC7 : DB :=
  { events := [evA]
    permissions := [⟨1, 0, 1, .OWNER⟩]
    histories := [⟨2, 0, 1, eventSnapshot evA, some 1⟩]
    nextId := 3 }

/-- Candidate interval [630, 690) — 10:30-11:30, overlapping `evA`. -/
def dOverlap : EventCreate :=
  { title := "C", description := none, start_time := 630, end_time := 690
    location := none, is_recurring := false, recurrence_pattern := none }

/-- Candidate interval [660, 720) — 11:00-12:00, adjacent to `evA`. -/
def dAdjacent : EventCreate :=
  { title := "D", description := none, start_time := 660, end_time := 720
    location := none, is_recurring := false, recurrence_pattern := none }

/-- C7: `create_event` fails with Conflict — with the store untouched —
exactly when some existing event of the owner satisfies
`existing.start < candidate.end AND existing.end > candidate.start`; in
particular [600,660) vs [630,690) conflicts while [600,660) vs [660,720)
does not (half-open boundary). -/
theorem create_event_conflict_iff (db : DB) (uid : Nat) (d : EventCreate) :
    (create_event db uid d = (db, .error .Conflict) ↔
      ∃ e ∈ db.events, e.owner_id = uid ∧ e.start_time < d.end_time ∧
        e.end_time > d.start_time) ∧
    create_event dbC7 1 dOverlap = (dbC7, .error .Conflict) ∧
    (create_event dbC7 1 dAdjacent).2 ≠ .error .Conflict := by
  refine ⟨?_, by decide, by decide⟩
  cases hc : db.events.any (fun ev =>
      ev.owner_id == uid && decide (ev.start_time < d.end_time)
        && decide (ev.end_time > d.start_time)) with
  | true =>
    simp only [create_event, hc, if_true]
    constructor
    · intro _
      rw [List.any_eq_true] at hc
      obtain ⟨e, he, hpe⟩ := hc
      simp only [Bool.and_eq_true, beq_iff_eq, decide_eq_true_eq] at hpe
      exact ⟨e, he, hpe.1.1, hpe.1.2, hpe.2⟩
    · intro _
      trivial
  | false =>
    simp only [create_event, hc, Bool.false_eq_true, if_false]
    constructor
    · intro h
      exfalso
      rcases hfind : (db.events ++ [new_event db uid d]).find?
          (fun ev => ev.id == (new_event db uid d).id) with _ | created
      · simp only [hfind, Prod.mk.injEq] at h
        exact Except.noConfusion h.2 (fun hk => ApiError.noConfusion hk)
      · simp only [hfind, Prod.mk.injEq] at h
        exact Except.noConfusion h.2
    · rintro ⟨e, he, h1, h2, h3⟩
      exfalso
      have hany : db.events.any (fun ev =>
          ev.owner_id == uid && decide (ev.start_time < d.end_time)
            && decide (ev.end_time > d.start_time)) = true :=
        List.any_eq_true.mpr ⟨e, he, by simp [h1, h2, h3]⟩
      rw [hc] at hany
      exact Bool.noConfusion hany

/-- The grant loop ends in success or in Conflict; it raises nothing else. -/
lemma grant_loop_result (eid uid : Nat) :
    ∀ (items : List GrantItem) (db : DB),
      (grant_loop eid uid db items).2.2 = .ok () ∨
      (grant_loop eid uid db items).2.2 = .error .Conflict := by
  intro items
  induction items with
  | nil => intro db; left; rfl
  | cons it rest ih =>
    intro db
    cases h1 : it.user_id == uid with
    | true =>
      simp only [grant_loop, h1, if_true]
      exact ih db
    | false =>
      cases h2 : (db.permissions.find? (fun p =>
          p.event_id == eid && p.user_id == it.user_id)).isSome with
      | true =>
        right
        simp [grant_loop, h1, h2]
      | false =>
        simp only [grant_loop, h1, h2, Bool.false_eq_true, if_false]
        rcases hres : grant_loop eid uid
            { db with
              permissions := db.permissions ++
                [{ id := db.nextId, event_id := eid, user_id := it.user_id
                   role := it.role }]
              nextId := db.nextId + 1 } rest with ⟨dbf, created, r⟩
        have := ih { db with
              permissions := db.permissions ++
                [{ id := db.nextId, event_id := eid, user_id := it.user_id
                   role := it.role }]
              nextId := db.nextId + 1 }
        rw [hres] at this
        simpa [hres] using this

/-- The grant loop only ever appends to the permission table: on return the
table is the input table extended by the created rows. -/
lemma grant_loop_append (eid uid : Nat) :
    ∀ (items : List GrantItem) (db : DB),
      (grant_loop eid uid db items).1.permissions =
        db.permissions ++ (grant_loop eid uid db items).2.1 := by
  intro items
  induction items with
  | nil => intro db; simp [grant_loop]
  | cons it rest ih =>
    intro db
    cases h1 : it.user_id == uid with
    | true =>
      simp only [grant_loop, h1, if_true]
      exact ih db
    | false =>
      cases h2 : (db.permissions.find? (fun p =>
          p.event_id == eid && p.user_id == it.user_id)).isSome with
      | true =>
        simp [grant_loop, h1, h2]
      | false =>
        simp only [grant_loop, h1, h2, Bool.false_eq_true, if_false]
        rcases hres : grant_loop eid uid
            { db with
              permissions := db.permissions ++
                [{ id := db.nextId, event_id := eid, user_id := it.user_id
                   role := it.role }]
              nextId := db.nextId + 1 } rest with ⟨dbf, created, r⟩
        have := ih { db with
              permissions := db.permissions ++
                [{ id := db.nextId, event_id := eid, user_id := it.user_id
                   role := it.role }]
              nextId := db.nextId + 1 }
        rw [hres] at this
        simp only [hres]
        simpa using this

/-- Skipping actor entries: the grant loop behaves as if entries whose user
is the actor were removed from the batch. -/
lemma grant_loop_skips_actor (eid uid : Nat) :
    ∀ (items : List GrantItem) (db : DB),
      grant_loop eid uid db items =
        grant_loop eid uid db (items.filter (fun it => !(it.user_id == uid))) := by
  intro items
  induction items with
  | nil => intro db; rfl
  | cons it rest ih =>
    intro db
    cases h1 : it.user_id == uid with
    | true =>
      simp only [grant_loop, h1, if_true, List.filter_cons, Bool.not_true]
      exact ih db
    | false =>
      simp only [grant_loop, h1, List.filter_cons, Bool.not_false, if_true,
        Bool.false_eq_true, if_false]
      rw [ih]

/-- If some non-skipped entry's user already holds a permission on the event
in the current table, the loop ends in Conflict. -/
lemma grant_loop_conflict (eid uid : Nat) :
    ∀ (items : List GrantItem) (db : DB),
      (∃ it ∈ items, it.user_id ≠ uid ∧ ∃ p ∈ db.permissions,
          p.event_id = eid ∧ p.user_id = it.user_id) →
      (grant_loop eid uid db items).2.2 = .error .Conflict := by
  intro items
  induction items with
  | nil =>
    rintro db ⟨it, hit, -⟩
    exact absurd hit (List.not_mem_nil it)
  | cons it rest ih =>
    rintro db ⟨w, hw, hwne, p, hp, hpe, hpu⟩
    cases h1 : it.user_id == uid with
    | true =>
      simp only [grant_loop, h1, if_true]
      rcases List.mem_cons.mp hw with hweq | hwrest
      · exact absurd (hweq ▸ (beq_iff_eq.mp h1)) hwne
      · exact ih db ⟨w, hwrest, hwne, p, hp, hpe, hpu⟩
    | false =>
      cases h2 : (db.permissions.find? (fun p =>
          p.event_id == eid && p.user_id == it.user_id)).isSome with
      | true =>
        simp [grant_loop, h1, h2]
      | false =>
        simp only [grant_loop, h1, h2, Bool.false_eq_true, if_false]
        have hwrest : w ∈ rest := by
          rcases List.mem_cons.mp hw with hweq | hwrest
          · exfalso
            subst hweq
            have : (db.permissions.find? (fun q =>
                q.event_id == eid && q.user_id == w.user_id)).isSome := by
              rw [List.find?_isSome]
              exact ⟨p, hp, by simp [hpe, hpu]⟩
            rw [h2] at this
            exact Bool.noConfusion this
          · exact hwrest
        rcases hres : grant_loop eid uid
            { db with
              permissions := db.permissions ++
                [{ id := db.nextId, event_id := eid, user_id := it.user_id
                   role := it.role }]
              nextId := db.nextId + 1 } rest with ⟨dbf, created, r⟩
        have := ih { db with
              permissions := db.permissions ++
                [{ id := db.nextId, event_id := eid, user_id := it.user_id
                   role := it.role }]
              nextId := db.nextId + 1 }
          ⟨w, hwrest, hwne, p, List.mem_append_left _ hp, hpe, hpu⟩
        rw [hres] at this
        simpa [hres] using this

/-- State for the grant scenario: user 1 owns `evA`, user 2 already holds a
Viewer permission on it. -/
def dbC8 : DB :=
  { events := [evA]
    permissions := [⟨1, 0, 1, .OWNER⟩, ⟨2, 0, 2, .VIEWER⟩]
    histories := []
    nextId := 3 }

/-- C8: `grant_event_permissions` fails with Forbidden exactly when the actor
holds no Owner permission on the event; entries whose user is the actor are
skipped silently (the call equals the call on the filtered batch); if any
entry's user already holds a permission on the event the whole call fails
with Conflict and the caller observes the unchanged store; and on success the
permission table is only extended — existing rows are unaltered. -/
theorem grant_permissions_owner_gate_skip_conflict (db : DB)
    (uid eid : Nat) (items : List GrantItem) :
    ((grant_event_permissions db uid eid items).2.2 = .error .Forbidden ↔
      ¬∃ r, get_user_event_permission db uid eid = some r ∧
        r.role = .OWNER) ∧
    (grant_event_permissions db uid eid items =
      grant_event_permissions db uid eid
        (items.filter (fun it => !(it.user_id == uid)))) ∧
    (∀ op, get_user_event_permission db uid eid = some op → op.role = .OWNER →
      (∃ it ∈ items, it.user_id ≠ uid ∧ ∃ p ∈ db.permissions,
          p.event_id = eid ∧ p.user_id = it.user_id) →
      grant_event_permissions db uid eid items = (db, [], .error .Conflict)) ∧
    (∀ db' msgs created,
      grant_event_permissions db uid eid items = (db', msgs, .ok created) →
      db'.permissions = db.permissions ++ created) := by
  refine ⟨?_, ?_, ?_, ?_⟩
  · cases hperm : get_user_event_permission db uid eid with
    | none =>
      simp only [grant_event_permissions, hperm]
      constructor
      · rintro - ⟨r, hr, -⟩
        exact Option.noConfusion hr
      · intro _
        trivial
    | some op =>
      cases hrole : op.role == PermissionRole.OWNER with
      | true =>
        simp only [grant_event_permissions, hperm, hrole, if_true]
        constructor
        · intro h
          exfalso
          rcases hres : grant_loop eid uid db items with ⟨db', created, r⟩
          rw [hres] at h
          cases r with
          | ok u =>
            simp at h
          | error e =>
            simp only at h
            rcases grant_loop_result eid uid items db with hok | hconf
            · rw [hres] at hok
              simp at hok
            · rw [hres] at hconf
              simp only at hconf
              injection hconf with hc
              injection h with hf
              rw [hc] at hf
              exact ApiError.noConfusion hf
        · intro h
          exact absurd ⟨op, rfl, beq_iff_eq.mp hrole⟩ h
      | false =>
        simp only [grant_event_permissions, hperm, hrole, Bool.false_eq_true,
          if_false]
        constructor
        · rintro - ⟨r, hr, hrrole⟩
          injection hr with hr
          subst hr
          rw [hrrole] at hrole
          simp at hrole
        · intro _
          trivial
  · simp only [grant_event_permissions]
    cases hperm : get_user_event_permission db uid eid with
    | none => rfl
    | some op => rw [grant_loop_skips_actor]
  · intro op hperm hrole hex
    have hconf := grant_loop_conflict eid uid items db hex
    rcases hres : grant_loop eid uid db items with ⟨db', created, r⟩
    rw [hres] at hconf
    simp only at hconf
    simp [grant_event_permissions, hperm, hrole, hres, hconf]
  · intro db' msgs created h
    cases hperm : get_user_event_permission db uid eid with
    | none =>
      simp only [grant_event_permissions, hperm] at h
      simp at h
    | some op =>
      cases hrole : op.role == PermissionRole.OWNER with
      | false =>
        simp only [grant_event_permissions, hperm, hrole,
          Bool.false_eq_true, if_false] at h
        simp at h
      | true =>
        simp only [grant_event_permissions, hperm, hrole, if_true] at h
        rcases hres : grant_loop eid uid db items with ⟨dbf, cr, r⟩
        rw [hres] at h
        have happ := grant_loop_append eid uid items db
        rw [hres] at happ
        simp only at happ
        cases r with
        | ok u =>
          simp only [Prod.mk.injEq] at h
          obtain ⟨hdb, -, hcr⟩ := h
          subst hdb
          injection hcr with hcr
          subst hcr
          exact happ
        | error e =>
          simp at h

/-- C8 witness: in `dbC8`, where user 2 already holds a Viewer permission on
event 0, owner 1 granting Editor to user 2 fails with Conflict and leaves
the store unchanged. -/
theorem grant_permissions_owner_gate_skip_conflict_witness :
    grant_event_permissions dbC8 1 0 [⟨2, .EDITOR⟩] =
      (dbC8, [], .error .Conflict) := by
  exact (grant_permissions_owner_gate_skip_conflict dbC8 1 0
      [⟨2, .EDITOR⟩]).2.2.1 ⟨1, 0, 1, .OWNER⟩ (by decide) (by decide)
    ⟨⟨2, .EDITOR⟩, by decide, by decide,
      ⟨2, 0, 2, .VIEWER⟩, by decide, by decide, by decide⟩

/-- Replacing the event with a matching id in the table preserves what the
reload SELECT finds: it now returns the replacement row. -/
lemma find_replace (l : List EventRow) (eid : Nat) (ev ev' : EventRow)
    (hfind : l.find? (fun e => e.id == eid) = some ev) (hid : ev'.id = eid) :
    (l.map (fun e => if e.id == eid then ev' else e)).find?
      (fun e => e.id == eid) = some ev' := by
  induction l with
  | nil => simp at hfind
  | cons a l ih =>
    cases ha : a.id == eid with
    | true =>
      simp only [List.map_cons, ha, if_true]
      rw [List.find?_cons_of_pos]
      simp [hid]
    | false =>
      simp only [List.map_cons, ha, Bool.false_eq_true, if_false]
      rw [List.find?_cons_of_neg _ (by simp [ha])]
      rw [List.find?_cons_of_neg _ (by simp [ha])] at hfind
      exact ih hfind

/-- A found event row satisfies the id predicate. -/
lemma find_event_id {l : List EventRow} {eid : Nat} {ev : EventRow}
    (h : l.find? (fun e => e.id == eid) = some ev) : ev.id = eid := by
  have := List.find?_some h
  simpa using this

/-- State for the viewer-rollback scenario: `dbC2` extended with a Viewer
permission for user 2 on event 0. -/
def dbC9 : DB :=
  { events := [evA]
    permissions := [⟨1, 0, 1, .OWNER⟩, ⟨4, 0, 2, .VIEWER⟩]
    histories := [⟨2, 0, 1, snapC2, some 1⟩]
    nextId := 3 }

/-- C9: the rollback endpoint requires no role stronger than Viewer — for a
requestor holding ANY Permission row on the event the `get_event` gate passes
and the rollback mutation is applied (a History row is appended and the event
is overwritten from the target snapshot), while a requestor with no
Permission row at all gets Forbidden. -/
theorem rollback_endpoint_allows_any_permission (db : DB)
    (uid eid vid : Nat) (ev : EventRow)
    (hev : db.events.find? (fun e => e.id == eid) = some ev) :
    (∀ r, get_user_event_permission db uid eid = some r →
      rollback_version db uid eid vid =
        rollback_event_to_version db eid vid uid) ∧
    (∀ r v, get_user_event_permission db uid eid = some r →
      get_event_version db vid = some v →
      (rollback_version db uid eid vid).2 =
        .ok (applyVersionData v.data ev) ∧
      (rollback_version db uid eid vid).1.histories =
        db.histories ++
          [⟨db.nextId, eid, next_version_for db eid,
            eventSnapshot (applyVersionData v.data ev), some uid⟩]) ∧
    (get_user_event_permission db uid eid = none →
      rollback_version db uid eid vid = (db, .error .Forbidden)) := by
  have hgate : ∀ r, get_user_event_permission db uid eid = some r →
      rollback_version db uid eid vid =
        rollback_event_to_version db eid vid uid := by
    intro r hr
    simp [rollback_version, get_event, hev, hr]
  refine ⟨hgate, ?_, ?_⟩
  · intro r v hr hv
    rw [hgate r hr]
    have hid : (applyVersionData v.data ev).id = eid := by
      simpa [applyVersionData] using find_event_id hev
    have hreload := find_replace db.events eid ev (applyVersionData v.data ev)
      hev hid
    rw [rollback_event_to_version, rollback_try, hv, hev]
    simp only [hreload]
    exact ⟨trivial, trivial⟩
  · intro hr
    simp [rollback_version, get_event, hev, hr]

/-- C9 witness: user 2, holding only a Viewer permission on event 0, rolls
event 0 back to version id 2 — the gate passes and a History row is
appended — while user 3, holding no permission, gets Forbidden. -/
theorem rollback_endpoint_allows_any_permission_witness :
    (rollback_version dbC9 2 0 2).2 = .ok (applyVersionData snapC2 evA) ∧
    (rollback_version dbC9 2 0 2).1.histories =
      dbC9.histories ++
        [⟨3, 0, 2, eventSnapshot (applyVersionData snapC2 evA), some 2⟩] ∧
    rollback_version dbC9 3 0 2 = (dbC9, .error .Forbidden) := by
  have h := rollback_endpoint_allows_any_permission dbC9 2 0 2 evA (by decide)
  have h3 := rollback_endpoint_allows_any_permission dbC9 3 0 2 evA (by decide)
  have hm := h.2.1 ⟨4, 0, 2, .VIEWER⟩ ⟨2, 0, 1, snapC2, some 1⟩
    (by decide) (by decide)
  exact ⟨hm.1, by simpa using hm.2, h3.2.2 (by decide)⟩

/-- A second history snapshot, the state event 1 had at its version 2. -/
def snapC10 : Snapshot :=
  { title := "B2", description := some "x", start_time := "720"
    end_time := "780", location := none, is_recurring := false
    recurrence_pattern := none, owner_id := "1" }

/-- State for the cross-event history scenario: user 2 holds a Viewer
permission on event 0 only; the two History rows belong to event 1. -/
def dbC10 : DB :=
  { events := [evA, evB]
    permissions := [⟨2, 0, 1, .OWNER⟩, ⟨3, 1, 1, .OWNER⟩, ⟨4, 0, 2, .VIEWER⟩]
    histories := [⟨5, 1, 1, snapC2, some 1⟩, ⟨6, 1, 2, snapC10, some 1⟩]
    nextId := 7 }

/-- C10: the `get_version` and `diff_versions` endpoints look History rows up
by version id alone and never compare the row's `event_id` with the path
event id: a requestor with any Permission on event `eid` receives (or diffs)
History rows belonging to a different event when their ids are supplied
under `eid`'s path. -/
theorem history_endpoints_ignore_path_event (db : DB)
    (uid eid vid1 vid2 : Nat) (ev : EventRow) (r : PermissionRow)
    (h1 h2 : HistoryRow)
    (hev : db.events.find? (fun e => e.id == eid) = some ev)
    (hperm : get_user_event_permission db uid eid = some r)
    (hv1 : get_event_version db vid1 = some h1)
    (hv2 : get_event_version db vid2 = some h2)
    (_hforeign1 : h1.event_id ≠ eid) (_hforeign2 : h2.event_id ≠ eid) :
    get_version db uid eid vid1 = .ok h1 ∧
    diff_versions db uid eid vid1 vid2 =
      .ok (snapshotDiff h1.data h2.data) := by
  constructor
  · simp [get_version, get_event, hev, hperm, hv1]
  · simp [diff_versions, get_event, hev, hperm, get_diff_between_versions,
      get_diff_try, hv1, hv2]

/-- C10 witness: user 2 holds a Viewer permission on event 0 only, yet
fetches and diffs the History rows with ids 5 and 6, which belong to
event 1, through event 0's path. -/
theorem history_endpoints_ignore_path_event_witness :
    get_version dbC10 2 0 5 = .ok ⟨5, 1, 1, snapC2, some 1⟩ ∧
    diff_versions dbC10 2 0 5 6 =
      .ok (snapshotDiff snapC2 snapC10) := by
  exact history_endpoints_ignore_path_event dbC10 2 0 5 6 evA
    ⟨4, 0, 2, .VIEWER⟩ ⟨5, 1, 1, snapC2, some 1⟩ ⟨6, 1, 2, snapC10, some 1⟩
    (by decide) (by decide) (by decide) (by decide) (by decide) (by decide)

/-- Permission rows referring only to already-allocated event ids are
invisible to a filter on a fresh event id. -/
lemma filter_perms_lt {l : List PermissionRow} {n : Nat}
    (h : ∀ p ∈ l, p.event_id < n) {m : Nat} (hm : n ≤ m) :
    l.filter (fun p => p.event_id == m) = [] := by
  rw [List.filter_eq_nil_iff]
  intro p hp
  simp only [beq_iff_eq]
  exact Nat.ne_of_lt (Nat.lt_of_lt_of_le (h p hp) hm)

/-- Permission rows referring only to later-allocated event ids are
invisible to a filter on an earlier event id. -/
lemma filter_perms_ge {l : List PermissionRow} {k : Nat}
    (h : ∀ p ∈ l, k ≤ p.event_id) {m : Nat} (hm : m < k) :
    l.filter (fun p => p.event_id == m) = [] := by
  rw [List.filter_eq_nil_iff]
  intro p hp
  simp only [beq_iff_eq]
  exact Nat.ne_of_gt (Nat.lt_of_lt_of_le hm (h p hp))

/-- History rows referring only to already-allocated event ids are invisible
to a filter on a fresh event id. -/
lemma filter_hists_lt {l : List HistoryRow} {n : Nat}
    (h : ∀ x ∈ l, x.event_id < n) {m : Nat} (hm : n ≤ m) :
    l.filter (fun x => x.event_id == m) = [] := by
  rw [List.filter_eq_nil_iff]
  intro x hx
  simp only [beq_iff_eq]
  exact Nat.ne_of_lt (Nat.lt_of_lt_of_le (h x hx) hm)

/-- The reload SELECT of `create_event` finds the event just inserted, as
long as existing event ids are all older than the fresh one. -/
lemma find_new_event (db : DB) (uid : Nat) (d : EventCreate)
    (hev : ∀ e ∈ db.events, e.id < db.nextId) :
    (db.events ++ [new_event db uid d]).find?
      (fun e => e.id == (new_event db uid d).id) = some (new_event db uid d) := by
  have hpre : db.events.find? (fun e => e.id == (new_event db uid d).id) = none := by
    rw [List.find?_eq_none]
    intro e he
    simp only [new_event, beq_iff_eq]
    exact Nat.ne_of_lt (hev e he)
  rw [List.find?_append, hpre]
  simp [new_event]

/-- Anatomy of a successful `create_event`: the conflict check passed, the
returned row is the freshly inserted one, and the new state is the old state
plus the event row, one Owner permission and one version-1 History row. -/
lemma create_event_ok_shape (db : DB) (uid : Nat) (d : EventCreate)
    (hev : ∀ e ∈ db.events, e.id < db.nextId) :
    ∀ db1 ev, create_event db uid d = (db1, .ok ev) →
      ev = new_event db uid d ∧
      db1 = { events := db.events ++ [new_event db uid d]
              permissions := db.permissions ++
                [⟨db.nextId + 1, db.nextId, uid, .OWNER⟩]
              histories := db.histories ++
                [⟨db.nextId + 2, db.nextId, 1,
                  eventSnapshot (new_event db uid d), some uid⟩]
              nextId := db.nextId + 3 } := by
  intro db1 ev h
  cases hc : db.events.any (fun e =>
      e.owner_id == uid && decide (e.start_time < d.end_time)
        && decide (e.end_time > d.start_time)) with
  | true =>
    rw [create_event] at h
    rw [hc] at h
    simp only [if_true] at h
    simp only [Prod.mk.injEq] at h
    exact absurd h.2 (by simp)
  | false =>
    rw [create_event] at h
    rw [hc] at h
    simp only [Bool.false_eq_true, if_false] at h
    rw [find_new_event db uid d hev] at h
    simp only [Prod.mk.injEq] at h
    obtain ⟨h1, h2⟩ := h
    injection h2 with h2
    refine ⟨h2.symm, ?_⟩
    rw [← h1]
    rfl

/-- Anatomy of a successful batch loop run: histories are untouched, the id
counter is monotone, the permission table is only extended by rows with
fresh event ids, every returned event has a fresh id, and — when the input
permission table refers only to already-allocated event ids — every
returned event ends up with exactly its one Owner permission row. -/
lemma batch_loop_spec (uid : Nat) :
    ∀ (ds : List EventCreate) (db db' : DB) (evs : List EventRow),
      create_events_batch_loop uid db ds = (db', .ok evs) →
      db'.histories = db.histories ∧
      db.nextId ≤ db'.nextId ∧
      (∃ added, db'.permissions = db.permissions ++ added ∧
        ∀ p ∈ added, db.nextId ≤ p.event_id) ∧
      (∀ ev ∈ evs, db.nextId ≤ ev.id ∧ ev.id < db'.nextId) ∧
      ((∀ p ∈ db.permissions, p.event_id < db.nextId) →
        ∀ ev ∈ evs,
          db'.permissions.filter (fun p => p.event_id == ev.id) =
            [⟨ev.id + 1, ev.id, uid, .OWNER⟩]) := by
  intro ds
  induction ds with
  | nil =>
    intro db db' evs h
    simp only [create_events_batch_loop, Prod.mk.injEq] at h
    obtain ⟨h1, h2⟩ := h
    injection h2 with h2
    subst h1
    subst h2
    refine ⟨rfl, Nat.le_refl _, ⟨[], by simp, by simp⟩, by simp, by simp⟩
  | cons d rest ih =>
    intro db db' evs h
    cases hc : db.events.any (fun ev =>
        ev.owner_id == uid && decide (ev.start_time < d.end_time)
          && decide (ev.end_time > d.start_time)) with
    | true =>
      rw [create_events_batch_loop] at h
      rw [hc] at h
      simp only [if_true, Prod.mk.injEq] at h
      exact absurd h.2 (by simp)
    | false =>
      rw [create_events_batch_loop] at h
      rw [hc] at h
      simp only [Bool.false_eq_true, if_false] at h
      rcases hres : create_events_batch_loop uid (batch_step uid db d) rest
        with ⟨dbf, r⟩
      rw [hres] at h
      cases r with
      | error e =>
        simp only [Prod.mk.injEq] at h
        exact absurd h.2 (by simp)
      | ok evs1 =>
        simp only [Prod.mk.injEq] at h
        obtain ⟨h1, h2⟩ := h
        injection h2 with h2
        subst h1
        subst h2
        obtain ⟨ihH, ihLe, ⟨added1, ihP, ihPge⟩, ihB, ihS⟩ :=
          ih (batch_step uid db d) _ evs1 hres
        have hstep_next : (batch_step uid db d).nextId = db.nextId + 2 := rfl
        have hle2 : db.nextId ≤ db.nextId + 2 := Nat.le_add_right _ _
        refine ⟨?_, ?_, ?_, ?_, ?_⟩
        · rw [ihH]
          rfl
        · exact Nat.le_trans hle2 (hstep_next ▸ ihLe)
        · refine ⟨(⟨db.nextId + 1, db.nextId, uid, .OWNER⟩ : PermissionRow)
            :: added1, ?_, ?_⟩
          · rw [ihP]
            simp [batch_step]
          · intro p hp
            rcases List.mem_cons.mp hp with rfl | hp1
            · exact Nat.le_refl _
            · exact Nat.le_trans hle2 (hstep_next ▸ ihPge p hp1)
        · intro ev hev
          rcases List.mem_cons.mp hev with rfl | hev1
          · refine ⟨Nat.le_refl _, ?_⟩
            have : db.nextId < (batch_step uid db d).nextId := by
              rw [hstep_next]
              omega
            exact Nat.lt_of_lt_of_le this ihLe
          · obtain ⟨hge, hlt⟩ := ihB ev hev1
            exact ⟨Nat.le_trans hle2 (hstep_next ▸ hge), hlt⟩
        · intro hOld ev hev
          have hOld1 : ∀ p ∈ (batch_step uid db d).permissions,
              p.event_id < (batch_step uid db d).nextId := by
            intro p hp
            rcases List.mem_append.mp hp with hp0 | hp1
            · exact Nat.lt_trans (hOld p hp0) (by rw [hstep_next]; omega)
            · rw [List.mem_singleton.mp hp1, hstep_next]
              show db.nextId < db.nextId + 2
              omega
          rcases List.mem_cons.mp hev with rfl | hev1
          · rw [ihP, List.filter_append]
            have hadded : added1.filter
                (fun p => p.event_id == (new_event db uid d).id) = [] := by
              refine filter_perms_ge ihPge ?_
              rw [hstep_next]
              simp only [new_event]
              omega
            have hid : (new_event db uid d).id = db.nextId := rfl
            have hbase : (batch_step uid db d).permissions.filter
                (fun p => p.event_id == (new_event db uid d).id) =
                [⟨db.nextId + 1, db.nextId, uid, .OWNER⟩] := by
              rw [hid]
              show (db.permissions ++ _).filter _ = _
              rw [List.filter_append,
                filter_perms_lt hOld (Nat.le_refl db.nextId)]
              simp
            rw [hadded, hbase, List.append_nil, hid]
          · exact ihS hOld1 ev hev1

/-- The empty store. -/
def dbEmpty : DB :=
  { events := [], permissions := [], histories := [], nextId := 0 }

/-- The single event created by the batch counterexample run. -/
def evC3 : EventRow := new_event dbEmpty 1 dOverlap

/-- C3 counterexample: a successful `create_events_batch` run persists NO
History row at all — refuting the claim that batch creation, like single
creation, persists exactly one version-1 History row per event. -/
theorem batch_create_writes_no_history :
    (create_events_batch dbEmpty 1 [dOverlap]).2 = .ok [evC3] ∧
    (create_events_batch dbEmpty 1 [dOverlap]).1.histories = [] ∧
    (create_events_batch dbEmpty 1 [dOverlap]).1.histories.filter
      (fun h => h.event_id == evC3.id) = [] := by
  decide

/-- C3 (amended): a single `create_event` persists exactly one Owner
Permission row and exactly one version-1 History row for the created event;
`create_events_batch` persists exactly one Owner Permission row per created
event but NO History row (the history table is untouched), so batch-created
events start with empty history. -/
theorem create_paths_permissions_and_history (db : DB) (uid : Nat)
    (d : EventCreate) (ds : List EventCreate)
    (hev : ∀ e ∈ db.events, e.id < db.nextId)
    (hperm : ∀ p ∈ db.permissions, p.event_id < db.nextId)
    (hhist : ∀ h ∈ db.histories, h.event_id < db.nextId) :
    (∀ db1 ev, create_event db uid d = (db1, .ok ev) →
      db1.permissions.filter (fun p => p.event_id == ev.id) =
        [⟨db.nextId + 1, ev.id, uid, .OWNER⟩] ∧
      db1.histories.filter (fun h => h.event_id == ev.id) =
        [⟨db.nextId + 2, ev.id, 1, eventSnapshot ev, some uid⟩]) ∧
    (∀ db2 evs, create_events_batch db uid ds = (db2, .ok evs) →
      db2.histories = db.histories ∧
      ∀ ev ∈ evs,
        db2.permissions.filter (fun p => p.event_id == ev.id) =
          [⟨ev.id + 1, ev.id, uid, .OWNER⟩] ∧
        db2.histories.filter (fun h => h.event_id == ev.id) = []) := by
  constructor
  · intro db1 ev h
    obtain ⟨hev', hdb1⟩ := create_event_ok_shape db uid d hev db1 ev h
    subst hev'
    subst hdb1
    have hid : (new_event db uid d).id = db.nextId := rfl
    constructor
    · show (db.permissions ++ _).filter _ = _
      rw [List.filter_append, filter_perms_lt hperm (hid ▸ Nat.le_refl _)]
      simp [new_event]
    · show (db.histories ++ _).filter _ = _
      rw [List.filter_append, filter_hists_lt hhist (hid ▸ Nat.le_refl _)]
      simp [new_event]
  · intro db2 evs h
    have hloop : create_events_batch_loop uid db ds = (db2, .ok evs) := by
      rw [create_events_batch] at h
      rcases hres : create_events_batch_loop uid db ds with ⟨dbf, r⟩
      rw [hres] at h
      cases r with
      | ok evs1 =>
        simp only [Prod.mk.injEq] at h
        obtain ⟨h1, h2⟩ := h
        injection h2 with h2
        rw [h1, h2]
      | error e =>
        simp only [Prod.mk.injEq] at h
        exact absurd h.2 (by simp)
    obtain ⟨hH, -, -, hB, hS⟩ := batch_loop_spec uid ds db db2 evs hloop
    refine ⟨hH, ?_⟩
    intro ev hev'
    refine ⟨hS hperm ev hev', ?_⟩
    rw [hH]
    exact filter_hists_lt hhist (hB ev hev').1

/-- C3 witness: from the empty store, a single create leaves event 0 with
its one Owner permission and its one version-1 snapshot, and a batch create
leaves event 0 with its one Owner permission and no History row. -/
theorem create_paths_permissions_and_history_witness :
    (create_event dbEmpty 1 dOverlap).1.permissions.filter
      (fun p => p.event_id == evC3.id) = [⟨1, evC3.id, 1, .OWNER⟩] ∧
    (create_event dbEmpty 1 dOverlap).1.histories.filter
      (fun h => h.event_id == evC3.id) =
      [⟨2, evC3.id, 1, eventSnapshot evC3, some 1⟩] ∧
    (create_events_batch dbEmpty 1 [dOverlap]).1.histories = [] ∧
    (create_events_batch dbEmpty 1 [dOverlap]).1.permissions.filter
      (fun p => p.event_id == evC3.id) = [⟨evC3.id + 1, evC3.id, 1, .OWNER⟩] := by
  have h := create_paths_permissions_and_history dbEmpty 1 dOverlap [dOverlap]
    (by simp [dbEmpty]) (by simp [dbEmpty]) (by simp [dbEmpty])
  have hc : create_event dbEmpty 1 dOverlap =
      ((create_event dbEmpty 1 dOverlap).1, .ok evC3) := by decide
  have hb : create_events_batch dbEmpty 1 [dOverlap] =
      ((create_events_batch dbEmpty 1 [dOverlap]).1, .ok [evC3]) := by decide
  obtain ⟨h1, h2⟩ := h.1 _ evC3 hc
  obtain ⟨h3, h4⟩ := h.2 _ [evC3] hb
  obtain ⟨h5, h6⟩ := h4 evC3 (by decide)
  exact ⟨h1, h2, h3, h5⟩

/-! ### The per-event version invariant (claim C5) -/

/-- The versions of each event's History rows are exactly `1..N`, in table
order. -/
def HistoryInv (db : DB) : Prop :=
  ∀ eid, eventVersions db eid = List.range' 1 (eventVersions db eid).length

/-- Appending one History row extends one event's version list. -/
lemma eventVersions_snoc (db' db : DB) (h : HistoryRow)
    (hh : db'.histories = db.histories ++ [h]) (eid : Nat) :
    eventVersions db' eid =
      eventVersions db eid ++
        (if h.event_id == eid then [h.version] else []) := by
  unfold eventVersions
  rw [hh, List.filter_append, List.map_append]
  congr 1
  cases hev : h.event_id == eid <;> simp [hev]

/-- `range' 1 (n + 1)` ends in `n + 1`. -/
lemma range'_one_concat (n : Nat) :
    List.range' 1 (n + 1) = List.range' 1 n ++ [n + 1] := by
  have h := @List.range'_concat 1 1 n
  simpa [Nat.add_comm] using h

/-- The fold the services use to pick the last version returns the greatest
element of `1..n`. -/
lemma foldl_max_range' (n : Nat) :
    (List.range' 1 n).foldl Nat.max 0 = n := by
  induction n with
  | zero => rfl
  | succ n ihn =>
    rw [range'_one_concat, List.foldl_append, ihn]
    show Nat.max n (n + 1) = n + 1
    exact Nat.max_eq_right (Nat.le_succ n)

/-- Under the invariant, the greatest stored version is the row count. -/
lemma maxVersion_of_inv (db : DB) (eid : Nat) (hinv : HistoryInv db) :
    maxVersion db eid = (eventVersions db eid).length := by
  rw [maxVersion]
  conv_lhs => rw [hinv eid]
  exact foldl_max_range' _

/-- The services' `1 if last_version is None else last_version + 1` equals
`max(existing versions, default 0) + 1`. -/
lemma next_version_eq (db : DB) (eid : Nat) :
    next_version_for db eid = maxVersion db eid + 1 := by
  rw [next_version_for, last_version, maxVersion]
  cases hvs : eventVersions db eid with
  | nil => simp [hvs]
  | cons a l => simp [hvs]

/-- Appending a History row at `max + 1` preserves the invariant. -/
lemma HistoryInv_snoc (db db' : DB) (h : HistoryRow)
    (hh : db'.histories = db.histories ++ [h])
    (hv : h.version = maxVersion db h.event_id + 1)
    (hinv : HistoryInv db) : HistoryInv db' := by
  intro eid
  rw [eventVersions_snoc db' db h hh eid]
  cases hev : h.event_id == eid with
  | false =>
    simpa using hinv eid
  | true =>
    have heid : h.event_id = eid := beq_iff_eq.mp hev
    subst heid
    have hlen : eventVersions db h.event_id =
        List.range' 1 (eventVersions db h.event_id).length :=
      hinv h.event_id
    rw [if_pos rfl, List.length_append, List.length_singleton, hv,
      maxVersion_of_inv db h.event_id hinv, range'_one_concat, ← hlen]

/-- The invariant only depends on the history table. -/
lemma HistoryInv_congr (db db' : DB) (hh : db'.histories = db.histories)
    (hinv : HistoryInv db) : HistoryInv db' := by
  intro eid
  have he : eventVersions db' eid = eventVersions db eid := by
    unfold eventVersions
    rw [hh]
  rw [he]
  exact hinv eid

/-- A fresh event id has no History rows yet. -/
lemma eventVersions_fresh (db : DB)
    (hh : ∀ x ∈ db.histories, x.event_id < db.nextId) :
    eventVersions db db.nextId = [] := by
  unfold eventVersions
  rw [filter_hists_lt hh (Nat.le_refl _)]
  rfl

instance : IsTotal HistoryRow (fun a b => a.version ≤ b.version) :=
  ⟨fun a b => Nat.le_total a.version b.version⟩

instance : IsTrans HistoryRow (fun a b => a.version ≤ b.version) :=
  ⟨fun _ _ _ hab hbc => Nat.le_trans hab hbc⟩

/-- Under the invariant, the history listing returns versions `1..N`. -/
lemma listHistory_versions (db : DB) (hinv : HistoryInv db) (eid : Nat) :
    (get_event_history_versions db eid).map (fun h => h.version) =
      List.range' 1 (eventVersions db eid).length := by
  have hperm : ((get_event_history_versions db eid).map
      (fun h => h.version)).Perm (eventVersions db eid) := by
    unfold get_event_history_versions eventVersions
    exact (List.perm_insertionSort _ _).map _
  have hsorted : ((get_event_history_versions db eid).map
      (fun h => h.version)).Sorted (· ≤ ·) := by
    unfold get_event_history_versions
    have hs := List.sorted_insertionSort
      (fun a b : HistoryRow => a.version ≤ b.version)
      (db.histories.filter (fun h => h.event_id == eid))
    exact List.Pairwise.map _ (fun a b hab => hab) hs
  have hsorted' :
      (List.range' 1 (eventVersions db eid).length).Sorted (· ≤ ·) := by
    have hlt := List.pairwise_lt_range' 1 (eventVersions db eid).length
    exact hlt.imp (fun hab => Nat.le_of_lt hab)
  rw [hinv eid] at hperm
  exact List.eq_of_perm_of_sorted hperm hsorted hsorted'

/-- Anatomy of a successful `update_event_try`: the event was found, the
returned row is the updated one, and the new state carries the pre-update
snapshot at the next sequential version. -/
lemma update_try_ok_shape (db : DB) (uid eid : Nat) (data : EventUpdate) :
    ∀ db' ev, update_event_try db uid eid data = (db', .ok ev) →
      ∃ event, db.events.find? (fun e => e.id == eid) = some event ∧
        ev = applyUpdate data event ∧
        db' = { events := db.events.map (fun e =>
                  if e.id == eid then applyUpdate data event else e)
                permissions := db.permissions
                histories := db.histories ++
                  [⟨db.nextId, eid, next_version_for db eid,
                    eventSnapshot event, some uid⟩]
                nextId := db.nextId + 1 } := by
  intro db' ev h
  rw [update_event_try] at h
  cases hc : data.start_time.isSome && data.end_time.isSome
      && db.events.any (fun e =>
        e.owner_id == uid && e.id != eid
          && decide (e.start_time < data.end_time.getD 0)
          && decide (e.end_time > data.start_time.getD 0)) with
  | true =>
    rw [hc] at h
    simp at h
  | false =>
    rw [hc] at h
    simp only [Bool.false_eq_true, if_false] at h
    cases hfind : db.events.find? (fun e => e.id == eid) with
    | none =>
      rw [hfind] at h
      simp at h
    | some event =>
      rw [hfind] at h
      simp only [Prod.mk.injEq] at h
      obtain ⟨h1, h2⟩ := h
      injection h2 with h2
      exact ⟨event, rfl, h2.symm, h1.symm⟩

/-- A successful `update_event` comes from a successful `update_event_try`. -/
lemma update_event_ok_of (db : DB) (uid eid : Nat) (data : EventUpdate) :
    ∀ db' ev, update_event db uid eid data = (db', .ok ev) →
      update_event_try db uid eid data = (db', .ok ev) := by
  intro db' ev h
  rw [update_event] at h
  cases hperm : get_user_event_permission db uid eid with
  | none =>
    simp only [hperm] at h
    simp at h
  | some p =>
    simp only [hperm] at h
    cases hrole : (p.role == PermissionRole.OWNER
        || p.role == PermissionRole.EDITOR) with
    | false =>
      rw [hrole] at h
      simp at h
    | true =>
      rw [hrole] at h
      simp only [if_true] at h
      rcases htry : update_event_try db uid eid data with ⟨dbt, rt⟩
      rw [htry] at h
      cases rt with
      | ok evt =>
        simp only at h
        exact h
      | error e =>
        simp only at h
        simp at h

/-- Anatomy of a successful `rollback_try`: version and event were found,
the returned row is the event with the snapshot applied, and the new state
carries a History row — built from the already-mutated event — at the next
sequential version. -/
lemma rollback_try_ok_shape (db : DB) (eid vid uid : Nat) :
    ∀ db' ev, rollback_try db eid vid uid = (db', .ok ev) →
      ∃ version event, get_event_version db vid = some version ∧
        db.events.find? (fun e => e.id == eid) = some event ∧
        ev = applyVersionData version.data event ∧
        db' = { events := db.events.map (fun e =>
                  if e.id == eid then applyVersionData version.data event
                  else e)
                permissions := db.permissions
                histories := db.histories ++
                  [⟨db.nextId, eid, next_version_for db eid,
                    eventSnapshot (applyVersionData version.data event),
                    some uid⟩]
                nextId := db.nextId + 1 } := by
  intro db' ev h
  rw [rollback_try] at h
  cases hv : get_event_version db vid with
  | none =>
    simp only [hv] at h
    simp at h
  | some version =>
    simp only [hv] at h
    cases hfind : db.events.find? (fun e => e.id == eid) with
    | none =>
      rw [hfind] at h
      simp at h
    | some event =>
      rw [hfind] at h
      have h0 : event.id = eid := find_event_id hfind
      have hid : (applyVersionData version.data event).id = eid := h0
      have hreload := find_replace db.events eid event
        (applyVersionData version.data event) hfind hid
      simp only [hreload] at h
      simp only [Prod.mk.injEq] at h
      obtain ⟨h1, h2⟩ := h
      injection h2 with h2
      exact ⟨version, event, rfl, rfl, h2.symm, h1.symm⟩

/-- A successful `rollback_event_to_version` comes from a successful
`rollback_try`. -/
lemma rollback_ok_of (db : DB) (eid vid uid : Nat) :
    ∀ db' ev, rollback_event_to_version db eid vid uid = (db', .ok ev) →
      rollback_try db eid vid uid = (db', .ok ev) := by
  intro db' ev h
  rw [rollback_event_to_version] at h
  rcases htry : rollback_try db eid vid uid with ⟨dbt, rt⟩
  rw [htry] at h
  cases rt with
  | ok evt =>
    simp only at h
    exact h
  | error e =>
    simp only at h
    simp at h

/-- A successful `create_events_batch` comes from a successful loop run. -/
lemma batch_ok_of (db : DB) (uid : Nat) (ds : List EventCreate) :
    ∀ db' evs, create_events_batch db uid ds = (db', .ok evs) →
      create_events_batch_loop uid db ds = (db', .ok evs) := by
  intro db' evs h
  rw [create_events_batch] at h
  rcases hres : create_events_batch_loop uid db ds with ⟨dbf, r⟩
  rw [hres] at h
  cases r with
  | ok evs1 =>
    simp only [Prod.mk.injEq] at h
    obtain ⟨h1, h2⟩ := h
    injection h2 with h2
    rw [h1, h2]
  | error e =>
    simp only [Prod.mk.injEq] at h
    exact absurd h.2 (by simp)

/-- C5: under the per-event version invariant with fresh ids, the history
listing of every event returns versions `1..N` with no gaps; every
successful `update_event` and `rollback_event_to_version` appends exactly
one History row for the mutated event at version
`max(existing versions, default 0) + 1` and preserves the invariant; a
successful `create_event` appends exactly its version-1 row (again
`max + 1`, the event being fresh) and preserves the invariant; and a
successful `create_events_batch` leaves the history table unchanged and so
also preserves the invariant. -/
theorem history_versions_sequential (db : DB)
    (hinv : HistoryInv db)
    (hev : ∀ e ∈ db.events, e.id < db.nextId)
    (hhist : ∀ h ∈ db.histories, h.event_id < db.nextId) :
    (∀ eid, (get_event_history_versions db eid).map (fun h => h.version) =
      List.range' 1 (eventVersions db eid).length) ∧
    (∀ uid eid data db' ev, update_event db uid eid data = (db', .ok ev) →
      ∃ hrow, db'.histories = db.histories ++ [hrow] ∧ hrow.event_id = eid ∧
        hrow.version = maxVersion db eid + 1 ∧ HistoryInv db') ∧
    (∀ eid vid uid db' ev,
      rollback_event_to_version db eid vid uid = (db', .ok ev) →
      ∃ hrow, db'.histories = db.histories ++ [hrow] ∧ hrow.event_id = eid ∧
        hrow.version = maxVersion db eid + 1 ∧ HistoryInv db') ∧
    (∀ uid d db' ev, create_event db uid d = (db', .ok ev) →
      ∃ hrow, db'.histories = db.histories ++ [hrow] ∧
        hrow.version = maxVersion db hrow.event_id + 1 ∧ HistoryInv db') ∧
    (∀ uid ds db' evs, create_events_batch db uid ds = (db', .ok evs) →
      db'.histories = db.histories ∧ HistoryInv db') := by
  refine ⟨fun eid => listHistory_versions db hinv eid, ?_, ?_, ?_, ?_⟩
  · intro uid eid data db' ev h
    obtain ⟨event, hfind, hev', hdb'⟩ :=
      update_try_ok_shape db uid eid data db' ev
        (update_event_ok_of db uid eid data db' ev h)
    refine ⟨⟨db.nextId, eid, next_version_for db eid,
      eventSnapshot event, some uid⟩, by rw [hdb'], rfl, ?_, ?_⟩
    · exact next_version_eq db eid
    · exact HistoryInv_snoc db db' _ (by rw [hdb']) (next_version_eq db eid)
        hinv
  · intro eid vid uid db' ev h
    obtain ⟨version, event, hv, hfind, hev', hdb'⟩ :=
      rollback_try_ok_shape db eid vid uid db' ev
        (rollback_ok_of db eid vid uid db' ev h)
    refine ⟨⟨db.nextId, eid, next_version_for db eid,
      eventSnapshot (applyVersionData version.data event), some uid⟩,
      by rw [hdb'], rfl, ?_, ?_⟩
    · exact next_version_eq db eid
    · exact HistoryInv_snoc db db' _ (by rw [hdb']) (next_version_eq db eid)
        hinv
  · intro uid d db' ev h
    obtain ⟨hev', hdb'⟩ := create_event_ok_shape db uid d hev db' ev h
    have hmax : maxVersion db db.nextId = 0 := by
      rw [maxVersion, eventVersions_fresh db hhist]
      rfl
    refine ⟨⟨db.nextId + 2, db.nextId, 1,
      eventSnapshot (new_event db uid d), some uid⟩, ?_, ?_, ?_⟩
    · rw [hdb']
    · show (1 : Nat) = maxVersion db db.nextId + 1
      rw [hmax]
    · exact HistoryInv_snoc db db' _ (by rw [hdb'])
        (by show (1 : Nat) = maxVersion db db.nextId + 1; rw [hmax]) hinv
  · intro uid ds db' evs h
    obtain ⟨hH, -, -, -, -⟩ :=
      batch_loop_spec uid ds db db' evs (batch_ok_of db uid ds db' evs h)
    exact ⟨hH, HistoryInv_congr db db' hH hinv⟩

/-- C5 witness: in the one-event store `dbC7` (one version-1 History row)
the invariant holds, and the listing for event 0 returns exactly the
versions `1..1`. -/
theorem history_versions_sequential_witness :
    (get_event_history_versions dbC7 0).map (fun h => h.version) =
      List.range' 1 (eventVersions dbC7 0).length := by
  have hinv7 : HistoryInv dbC7 := by
    intro eid
    by_cases h0 : eid = 0
    · subst h0
      decide
    · have hbe : ((0 : Nat) == eid) = false :=
        beq_eq_false_iff_ne.mpr (fun he => h0 he.symm)
      simp [eventVersions, dbC7, hbe]
  exact (history_versions_sequential dbC7 hinv7 (by decide) (by decide)).1 0

end EventManager
